import Mathlib

/-!
# High-Scale Energy Ingestion Engine — verification development

A shallow embedding of the core of the energy telemetry ingestion engine
(Node.js + PostgreSQL) and proofs of its specified properties.

Conventions of the embedding:
* JavaScript numbers and SQL `DECIMAL` values are modelled as exact
  rationals (`ℚ`); `NaN` produced by `parseFloat` on a non-numeric input
  is modelled as `Option.none`.
* SQL timestamps are modelled as integers (an instant on a linear time
  line); the 24-hour window `[start, now]` is represented by its start
  instant, and the SQL predicate `recorded_at >= start` filters on it.
* Rounding to 2 decimal places (JS `toFixed(2)` and SQL
  `ROUND(x::numeric, 2)`) is modelled as exact decimal rounding of the
  rational value, half away from zero.
-/

namespace EnergyEngine

/-- Decimal rounding to 2 places, half away from zero, on exact rationals.
Models both JS `Number.prototype.toFixed(2)` (read back via `parseFloat`)
and PostgreSQL `ROUND(x::numeric, 2)` on the exact value. -/
def round2 (q : ℚ) : ℚ :=
  (if 0 ≤ q then ⌊q * 100 + 1/2⌋ else -⌊-(q * 100) + 1/2⌋ : ℤ) / 100

/-- JS `x || 0` applied to the result of `parseFloat`: `none` models `NaN`
(e.g. `parseFloat(null)` when a SQL aggregate over zero rows returns NULL)
and is replaced by `0`; a real number `0` is falsy and also maps to `0`,
which coincides with the identity. -/
def jsOr0 : Option ℚ → ℚ
  | none => 0
  | some q => q

/-! ## Analytics data model

Rows of the two history tables, with the numeric columns (`DECIMAL` in the
schema) as rationals and `recorded_at` as an instant. -/

/-- A row of `meter_telemetry_history`. -/
structure MeterHistRow where
  meter_id : String
  kwh_consumed_ac : ℚ
  voltage : ℚ
  recorded_at : ℤ
  deriving Repr, DecidableEq

/-- A row of `vehicle_telemetry_history`. -/
structure VehicleHistRow where
  vehicle_id : String
  soc : ℚ
  kwh_delivered_dc : ℚ
  battery_temp : ℚ
  recorded_at : ℤ
  deriving Repr, DecidableEq

/-- The history tables read by the analytics queries. -/
structure AnalyticsDb where
  meterHistory : List MeterHistRow
  vehicleHistory : List VehicleHistRow
  deriving Repr

/-- The vehicle-side rows selected by both computation paths:
`WHERE vehicle_id = $1 AND recorded_at >= $2`. -/
def vehicleRowsIn (db : AnalyticsDb) (vid : String) (start : ℤ) : List VehicleHistRow :=
  db.vehicleHistory.filter (fun r => r.vehicle_id = vid ∧ start ≤ r.recorded_at)

/-- The meter-side rows selected by both computation paths:
`WHERE meter_id = $1 AND recorded_at >= $2`. -/
def meterRowsIn (db : AnalyticsDb) (mid : String) (start : ℤ) : List MeterHistRow :=
  db.meterHistory.filter (fun r => r.meter_id = mid ∧ start ≤ r.recorded_at)

/-- SQL `SUM` over a (possibly empty) group: NULL on zero rows. -/
def sqlSum (l : List ℚ) : Option ℚ :=
  match l with
  | [] => none
  | _ => some (l.sum)

/-- SQL `AVG` over a (possibly empty) group: NULL on zero rows. -/
def sqlAvg (l : List ℚ) : Option ℚ :=
  match l with
  | [] => none
  | _ => some (l.sum / l.length)

/-- The six numeric quantities of a formatted performance response that the
specification compares across the two computation paths (the fields of
`formatPerformanceData`'s `performance` and `metadata` blocks, minus the
timestamps). -/
structure PerfData where
  totalDcDelivered : ℚ
  totalAcConsumed : ℚ
  efficiencyPct : ℚ
  avgBatteryTemp : ℚ
  vehicleReadings : ℕ
  meterReadings : ℕ
  deriving Repr, DecidableEq

/-- `AnalyticsService.computePerformanceOnDemand` (analyticsService.js,
fallback path), restricted to the six compared quantities.  The two indexed
queries aggregate the vehicle and meter history over the window, then:
`totalDc = parseFloat(SUM)||0`, `totalAc = parseFloat(SUM)||0`,
`efficiencyPct = totalAc > 0 ? (totalDc/totalAc*100).toFixed(2) : 0`,
and `formatPerformanceData` reads the fields back with `parseFloat(x)||0`
(identity on the rational values involved). -/
def computePerformanceOnDemand (db : AnalyticsDb) (vid : String) (start : ℤ) : PerfData :=
  let vrows := vehicleRowsIn db vid start
  let mrows := meterRowsIn db vid start
  let totalDc := jsOr0 (sqlSum (vrows.map (·.kwh_delivered_dc)))
  let totalAc := jsOr0 (sqlSum (mrows.map (·.kwh_consumed_ac)))
  let efficiencyPct := if totalAc > 0 then round2 (totalDc / totalAc * 100) else 0
  { totalDcDelivered := totalDc
    totalAcConsumed := totalAc
    efficiencyPct := efficiencyPct
    avgBatteryTemp := jsOr0 (sqlAvg (vrows.map (·.battery_temp)))
    vehicleReadings := vrows.length
    meterReadings := mrows.length }

/-- A row of the materialized view `vehicle_24h_performance`, restricted to
the numeric columns (timestamps `first_reading`/`last_reading`/`computed_at`
omitted: the claims do not compare them). -/
structure MvRow where
  vehicle_id : String
  total_dc_delivered : ℚ
  total_ac_consumed : ℚ
  efficiencyPct : ℚ
  avg_battery_temp : ℚ
  vehicle_readings : ℕ
  meter_readings : ℕ
  deriving Repr, DecidableEq

/-- The row of a freshly refreshed `vehicle_24h_performance` for one
vehicle (schema.sql): the view groups vehicle history rows in the window by
`vehicle_id` (so a row exists exactly when the vehicle has at least one
history row in the window), LEFT JOINs the per-meter AC totals on
`vehicle_id = meter_id`, takes `COALESCE(m.total_ac_consumed, 0)` and
`COALESCE(m.reading_count, 0)`, and computes
`efficiencyPct = CASE WHEN ac > 0 THEN ROUND(dc/ac*100, 2) ELSE 0 END`. -/
def mvRowFor (db : AnalyticsDb) (vid : String) (start : ℤ) : Option MvRow :=
  match vehicleRowsIn db vid start with
  | [] => none
  | v :: vs =>
    let vrows := v :: vs
    let mrows := meterRowsIn db vid start
    let mSide : Option (ℚ × ℕ) :=
      match mrows with
      | [] => none
      | _ => some ((mrows.map (·.kwh_consumed_ac)).sum, mrows.length)
    let total_ac := match mSide with
      | none => 0
      | some p => p.1
    let total_dc := (vrows.map (·.kwh_delivered_dc)).sum
    some
      { vehicle_id := vid
        total_dc_delivered := total_dc
        total_ac_consumed := total_ac
        efficiencyPct := if total_ac > 0 then round2 (total_dc / total_ac * 100) else 0
        avg_battery_temp := (vrows.map (·.battery_temp)).sum / vrows.length
        vehicle_readings := vrows.length
        meter_readings := match mSide with
          | none => 0
          | some p => p.2 }

/-- `AnalyticsService.formatPerformanceData` applied to a materialized-view
row (the summary branch of `getVehiclePerformance`), restricted to the six
compared quantities; every numeric field goes through `parseFloat(x) || 0`,
the identity on these rational values except that `0` maps to `0`. -/
def formatMvRow (r : MvRow) : PerfData :=
  { totalDcDelivered := jsOr0 (some r.total_dc_delivered)
    totalAcConsumed := jsOr0 (some r.total_ac_consumed)
    efficiencyPct := jsOr0 (some r.efficiencyPct)
    avgBatteryTemp := jsOr0 (some r.avg_battery_temp)
    vehicleReadings := r.vehicle_readings
    meterReadings := r.meter_readings }

/-! ## Concrete datasets used by witnesses and counterexamples -/

/-- A dataset with one vehicle row (9 kWh DC, 25 °C, t = 5) and one meter
row (10 kWh AC, t = 5) for the shared id `V1`. -/
def exDb : AnalyticsDb :=
  { meterHistory := [⟨"V1", 10, 230, 5⟩], vehicleHistory := [⟨"V1", 50, 9, 25, 5⟩] }

/-- A dataset reachable through the batch path (which skips per-field
validation): a negative AC total (−5 kWh) for `V1`, plus one vehicle row
delivering 5 kWh DC. -/
def negAcDb : AnalyticsDb :=
  { meterHistory := [⟨"V1", -5, 230, 5⟩], vehicleHistory := [⟨"V1", 50, 5, 20, 5⟩] }

/-- **C1.** For every dataset, vehicle id and window, whenever a freshly
refreshed `vehicle_24h_performance` has a row for the vehicle, the
on-demand fallback (`computePerformanceOnDemand`) produces exactly the
same six quantities — totalDcDelivered, totalAcConsumed, efficiencyPct,
avgBatteryTemp, and both reading counts — as formatting that summary row. -/
theorem fallback_matches_fresh_summary (db : AnalyticsDb) (vid : String) (start : ℤ)
    (r : MvRow) (h : mvRowFor db vid start = some r) :
    computePerformanceOnDemand db vid start = formatMvRow r := by
  unfold mvRowFor at h
  unfold computePerformanceOnDemand
  cases hv : vehicleRowsIn db vid start with
  | nil => rw [hv] at h; simp at h
  | cons v vs =>
    rw [hv] at h
    simp only [Option.some.injEq] at h
    subst h
    cases hm : meterRowsIn db vid start with
    | nil => simp [formatMvRow, hv, hm, sqlSum, sqlAvg, jsOr0]
    | cons m ms => simp [formatMvRow, hv, hm, sqlSum, sqlAvg, jsOr0]

/-- Witness for C1 at the concrete dataset `exDb`: the summary row exists
and the fallback result equals its formatting. -/
theorem fallback_matches_fresh_summary_witness :
    computePerformanceOnDemand exDb "V1" 0 = formatMvRow ⟨"V1", 9, 10, 90, 25, 1, 1⟩ :=
  fallback_matches_fresh_summary exDb "V1" 0 ⟨"V1", 9, 10, 90, 25, 1, 1⟩ (by
    simp [mvRowFor, vehicleRowsIn, meterRowsIn, exDb, round2]
    norm_num)

/-- **C2, counterexample.** At the dataset `negAcDb` (total AC consumed is
−5, hence nonzero), the fallback path returns efficiencyPct 0, not
`round2 (totalDc / totalAc * 100)` = −100 as the claim's
"whenever totalAcConsumed is nonzero" clause demands. -/
theorem efficiency_nonzero_clause_counterexample :
    ¬ ((computePerformanceOnDemand negAcDb "V1" 0).totalAcConsumed = 0 ∨
       (computePerformanceOnDemand negAcDb "V1" 0).efficiencyPct =
         round2 ((computePerformanceOnDemand negAcDb "V1" 0).totalDcDelivered /
                 (computePerformanceOnDemand negAcDb "V1" 0).totalAcConsumed * 100)) := by
  have h : computePerformanceOnDemand negAcDb "V1" 0 = ⟨5, -5, 0, 20, 1, 1⟩ := by
    simp [computePerformanceOnDemand, vehicleRowsIn, meterRowsIn, sqlSum, sqlAvg, jsOr0,
      negAcDb]
  rw [h]
  rw [show round2 ((5:ℚ) / (-5) * 100) = -100 by norm_num [round2]]
  norm_num

/-- **C2, amended.** On both computation paths, efficiencyPct equals
`round2 (totalDcDelivered / totalAcConsumed * 100)` whenever
totalAcConsumed is strictly positive, and equals exactly 0 whenever
totalAcConsumed ≤ 0 (in particular when it is 0); it is always a
well-defined rational, never a NaN or a division error. -/
theorem efficiencyPct_definition (db : AnalyticsDb) (vid : String) (start : ℤ) :
    (0 < (computePerformanceOnDemand db vid start).totalAcConsumed →
      (computePerformanceOnDemand db vid start).efficiencyPct =
        round2 ((computePerformanceOnDemand db vid start).totalDcDelivered /
                (computePerformanceOnDemand db vid start).totalAcConsumed * 100)) ∧
    ((computePerformanceOnDemand db vid start).totalAcConsumed ≤ 0 →
      (computePerformanceOnDemand db vid start).efficiencyPct = 0) ∧
    (∀ r : MvRow, mvRowFor db vid start = some r →
      (0 < r.total_ac_consumed →
        r.efficiencyPct = round2 (r.total_dc_delivered / r.total_ac_consumed * 100)) ∧
      (r.total_ac_consumed ≤ 0 → r.efficiencyPct = 0)) := by
  refine ⟨?_, ?_, ?_⟩
  · intro hpos
    simp only [computePerformanceOnDemand] at hpos ⊢
    rw [if_pos hpos]
  · intro hle
    simp only [computePerformanceOnDemand] at hle ⊢
    rw [if_neg (by exact not_lt.mpr hle)]
  · intro r h
    unfold mvRowFor at h
    cases hv : vehicleRowsIn db vid start with
    | nil => rw [hv] at h; simp at h
    | cons v vs =>
      rw [hv] at h
      simp only [Option.some.injEq] at h
      subst h
      constructor
      · intro hpos
        simp only at hpos ⊢
        rw [if_pos hpos]
      · intro hle
        simp only at hle ⊢
        rw [if_neg (by exact not_lt.mpr hle)]

/-- Witness for C2 (amended), discharging each hypothesis at concrete
inputs: at `exDb` total AC is 10 > 0 and the ratio is the rounded formula
(90); at `negAcDb` total AC is −5 ≤ 0 and the ratio is 0; and the fresh
summary row of `negAcDb` likewise has ratio 0. -/
theorem efficiencyPct_definition_witness :
    (computePerformanceOnDemand exDb "V1" 0).efficiencyPct =
      round2 ((computePerformanceOnDemand exDb "V1" 0).totalDcDelivered /
              (computePerformanceOnDemand exDb "V1" 0).totalAcConsumed * 100) ∧
    (computePerformanceOnDemand negAcDb "V1" 0).efficiencyPct = 0 ∧
    MvRow.efficiencyPct ⟨"V1", 5, -5, 0, 20, 1, 1⟩ = 0 := by
  refine ⟨(efficiencyPct_definition exDb "V1" 0).1 ?_,
          (efficiencyPct_definition negAcDb "V1" 0).2.1 ?_,
          ((efficiencyPct_definition negAcDb "V1" 0).2.2 ⟨"V1", 5, -5, 0, 20, 1, 1⟩ ?_).2
            (by norm_num)⟩
  · simp [computePerformanceOnDemand, vehicleRowsIn, meterRowsIn, sqlSum, jsOr0, exDb]
  · simp [computePerformanceOnDemand, vehicleRowsIn, meterRowsIn, sqlSum, jsOr0, negAcDb]
  · simp [mvRowFor, vehicleRowsIn, meterRowsIn, negAcDb]

/-! ## Efficiency alerts (`AnalyticsService.getEfficiencyAlerts`)

The alerts query reads the stored `vehicle_24h_performance` view (possibly
stale), so it is modelled over an arbitrary list of view rows. -/

/-- The fixed diagnostic message attached to every alert row. -/
def lowEfficiencyMessage : String :=
  "Low efficiency - possible hardware fault or energy leakage"

/-- One element of the list returned by `getEfficiencyAlerts`. -/
structure AlertView where
  vehicleId : String
  efficiencyPct : ℚ
  totalAcConsumed : ℚ
  totalDcDelivered : ℚ
  avgBatteryTemp : ℚ
  alert : String
  deriving Repr, DecidableEq

/-- The row-mapping of `getEfficiencyAlerts` (`result.rows.map`): each
selected view row becomes an alert annotated with the fixed message;
`parseFloat` on the numeric columns is the identity in the rational
model. -/
def mkAlert (r : MvRow) : AlertView :=
  { vehicleId := r.vehicle_id
    efficiencyPct := r.efficiencyPct
    totalAcConsumed := r.total_ac_consumed
    totalDcDelivered := r.total_dc_delivered
    avgBatteryTemp := r.avg_battery_temp
    alert := lowEfficiencyMessage }

/-- The SQL ordering `ORDER BY efficiencyPct ASC`. -/
def effLe (a b : MvRow) : Prop := a.efficiencyPct ≤ b.efficiencyPct

instance : DecidableRel effLe := fun a b =>
  inferInstanceAs (Decidable (a.efficiencyPct ≤ b.efficiencyPct))

instance : IsTotal MvRow effLe :=
  ⟨fun x y => le_total x.efficiencyPct y.efficiencyPct⟩

instance : IsTrans MvRow effLe := ⟨fun _ _ _ => le_trans⟩

/-- `AnalyticsService.getEfficiencyAlerts(threshold)`: selects the view
rows with `efficiencyPct > 0 AND efficiencyPct < $1`, ordered by
`efficiencyPct ASC`, and maps each to an `AlertView`. -/
def getEfficiencyAlerts (summary : List MvRow) (threshold : ℚ) : List AlertView :=
  ((summary.filter
      (fun r => 0 < r.efficiencyPct ∧ r.efficiencyPct < threshold)).insertionSort
    effLe).map mkAlert

/-- **C6.** For every threshold and every stored summary, the alerts are
exactly the vehicles whose view row has 0 < efficiencyPct < threshold
(so a row with ratio 0 or ratio ≥ threshold never appears), sorted
ascending by efficiencyPct, and every alert carries the fixed
diagnostic message. -/
theorem efficiency_alerts_spec (summary : List MvRow) (threshold : ℚ) :
    (∀ a : AlertView, a ∈ getEfficiencyAlerts summary threshold ↔
      ∃ r ∈ summary, 0 < r.efficiencyPct ∧ r.efficiencyPct < threshold ∧ a = mkAlert r) ∧
    (getEfficiencyAlerts summary threshold).Sorted
      (fun a b => a.efficiencyPct ≤ b.efficiencyPct) ∧
    (∀ a ∈ getEfficiencyAlerts summary threshold, a.alert = lowEfficiencyMessage) := by
  refine ⟨?_, ?_, ?_⟩
  · intro a
    simp only [getEfficiencyAlerts, List.mem_map, List.mem_insertionSort, List.mem_filter,
      decide_eq_true_eq]
    constructor
    · rintro ⟨r, ⟨hr, hpos, hlt⟩, rfl⟩
      exact ⟨r, hr, hpos, hlt, rfl⟩
    · rintro ⟨r, hr, hpos, hlt, rfl⟩
      exact ⟨r, ⟨hr, hpos, hlt⟩, rfl⟩
  · have hs := List.sorted_insertionSort effLe
      (summary.filter (fun r => 0 < r.efficiencyPct ∧ r.efficiencyPct < threshold))
    exact List.Pairwise.map mkAlert (fun _ _ h => h) hs
  · intro a ha
    simp only [getEfficiencyAlerts, List.mem_map] at ha
    obtain ⟨r, _, rfl⟩ := ha
    rfl

/-- Witness for C6: in a three-row summary (ratios 40, 0 and 90) with the
default threshold 85, the ratio-40 vehicle is alerted. -/
theorem efficiency_alerts_spec_witness :
    mkAlert ⟨"V1", 4, 10, 40, 25, 3, 3⟩ ∈
      getEfficiencyAlerts
        [⟨"V1", 4, 10, 40, 25, 3, 3⟩, ⟨"V2", 0, 0, 0, 25, 2, 0⟩, ⟨"V3", 9, 10, 90, 25, 3, 3⟩]
        85 :=
  ((efficiency_alerts_spec
      [⟨"V1", 4, 10, 40, 25, 3, 3⟩, ⟨"V2", 0, 0, 0, 25, 2, 0⟩, ⟨"V3", 9, 10, 90, 25, 3, 3⟩]
      85).1 (mkAlert ⟨"V1", 4, 10, 40, 25, 3, 3⟩)).2
    ⟨⟨"V1", 4, 10, 40, 25, 3, 3⟩, by simp, by norm_num, by norm_num, rfl⟩

/-! ## Alerts controller: effective threshold -/

/-- The effective threshold of `AnalyticsController.getEfficiencyAlerts`:
`const threshold = parseFloat(req.query.threshold) || 85`.  The argument
is the result of `parseFloat` on the `threshold` query parameter, with
`none` standing for `NaN` (parameter absent or not parseable as a
number); JS `||` replaces both `NaN` and `0` (falsy values) by the
default `85`. -/
def effectiveThreshold (parsed : Option ℚ) : ℚ :=
  match parsed with
  | none => 85
  | some q => if q = 0 then 85 else q

/-- **C10.** Whenever the threshold query parameter parses to 0 or does
not parse to a number, the alerts endpoint uses the default threshold 85;
consequently 0 is never the effective threshold. -/
theorem alerts_threshold_default (parsed : Option ℚ) :
    ((parsed = none ∨ parsed = some 0) → effectiveThreshold parsed = 85) ∧
    effectiveThreshold parsed ≠ 0 := by
  constructor
  · rintro (rfl | rfl) <;> simp [effectiveThreshold]
  · match parsed with
    | none => simp [effectiveThreshold]
    | some q =>
      by_cases hq : q = 0 <;> simp [effectiveThreshold, hq]

/-- Witness for C10: a request whose parameter parses to 0 gets threshold
85, as does one whose parameter does not parse; a request parsing to 42
has a nonzero effective threshold. -/
theorem alerts_threshold_default_witness :
    effectiveThreshold (some 0) = 85 ∧ effectiveThreshold none = 85 ∧
    effectiveThreshold (some 42) ≠ 0 :=
  ⟨(alerts_threshold_default (some 0)).1 (Or.inr rfl),
   (alerts_threshold_default none).1 (Or.inl rfl),
   (alerts_threshold_default (some 42)).2⟩

/-! ## Telemetry payloads and classification -/

/-- A JavaScript value as it appears in a telemetry payload field.
`time t` stands for a date-parseable string (e.g. an ISO-8601 literal),
identified with the instant `t` it denotes; `str` covers the remaining,
non-date strings. -/
inductive JsValue where
  | null
  | bool (b : Bool)
  | num (q : ℚ)
  | str (s : String)
  | time (t : ℤ)
  deriving Repr, DecidableEq

/-- An inbound reading payload: the union of the meter and vehicle field
sets, each field either absent (`none`, JS `undefined`) or present with a
value of any type. -/
structure Payload where
  meterId : Option JsValue := none
  kwhConsumedAc : Option JsValue := none
  voltage : Option JsValue := none
  vehicleId : Option JsValue := none
  soc : Option JsValue := none
  kwhDeliveredDc : Option JsValue := none
  batteryTemp : Option JsValue := none
  timestamp : Option JsValue := none
  deriving Repr, DecidableEq

/-- The classification outcome of `identifyTelemetryType`. -/
inductive TelemetryType where
  | meter
  | vehicle
  | unknown
  deriving Repr, DecidableEq

/-- `identifyTelemetryType` (ingestionController.js): a payload is a meter
reading if `meterId`, `kwhConsumedAc` and `voltage` are all `!== undefined`;
otherwise a vehicle reading if `vehicleId`, `soc` and `kwhDeliveredDc` are
all `!== undefined`; otherwise unknown. -/
def identifyTelemetryType (data : Payload) : TelemetryType :=
  if data.meterId.isSome ∧ data.kwhConsumedAc.isSome ∧ data.voltage.isSome then
    .meter
  else if data.vehicleId.isSome ∧ data.soc.isSome ∧ data.kwhDeliveredDc.isSome then
    .vehicle
  else
    .unknown

/-- **C8.** Classification is by key presence alone, meter checked before
vehicle: the result is `meter` iff the three meter keys are present,
`vehicle` iff the meter check fails and the three vehicle keys are
present, and `unknown` iff both checks fail; a payload carrying both
complete field sets classifies as `meter`. -/
theorem classification_spec (d : Payload) :
    (identifyTelemetryType d = .meter ↔
      (d.meterId.isSome ∧ d.kwhConsumedAc.isSome ∧ d.voltage.isSome)) ∧
    (identifyTelemetryType d = .vehicle ↔
      (¬(d.meterId.isSome ∧ d.kwhConsumedAc.isSome ∧ d.voltage.isSome) ∧
       (d.vehicleId.isSome ∧ d.soc.isSome ∧ d.kwhDeliveredDc.isSome))) ∧
    (identifyTelemetryType d = .unknown ↔
      (¬(d.meterId.isSome ∧ d.kwhConsumedAc.isSome ∧ d.voltage.isSome) ∧
       ¬(d.vehicleId.isSome ∧ d.soc.isSome ∧ d.kwhDeliveredDc.isSome))) := by
  unfold identifyTelemetryType
  by_cases hm : d.meterId.isSome ∧ d.kwhConsumedAc.isSome ∧ d.voltage.isSome <;>
    by_cases hv : d.vehicleId.isSome ∧ d.soc.isSome ∧ d.kwhDeliveredDc.isSome <;>
    simp [hm, hv]

/-- Witness for C8: a payload carrying both complete field sets (with
deliberately non-numeric meter values, showing no type validation)
classifies as meter. -/
theorem classification_spec_witness :
    identifyTelemetryType
      { meterId := some (.str "M1"), kwhConsumedAc := some (.str "not-a-number"),
        voltage := some .null, vehicleId := some (.str "V1"), soc := some (.num 50),
        kwhDeliveredDc := some (.num 5) } = .meter :=
  (classification_spec
    { meterId := some (.str "M1"), kwhConsumedAc := some (.str "not-a-number"),
      voltage := some .null, vehicleId := some (.str "V1"), soc := some (.num 50),
      kwhDeliveredDc := some (.num 5) }).1.mpr (by simp)

/-! ## Ingestion model

The ingestion services hand the raw JS payload field values to the store
driver, so the persisted rows hold the values as submitted
(`Option JsValue`, `none` = JS `undefined`).  Store-level failures
(connection loss, constraint violation, …) are abstracted by an oracle
saying for each statement inside a transaction whether it fails; the
transaction wrapper of database.js (`BEGIN … COMMIT` / `ROLLBACK`)
restores the pre-transaction state on any failure, which is the atomicity
contract the spec requires of the store. -/

/-- A row of `vehicle_telemetry_history` as written by the services
(`ingested_at`, assigned by the store, omitted). -/
structure VHistRowJs where
  vehicle_id : Option JsValue
  soc : Option JsValue
  kwh_delivered_dc : Option JsValue
  battery_temp : Option JsValue
  recorded_at : Option JsValue
  deriving Repr, DecidableEq

/-- A row of `vehicle_current_status` as written by the services. -/
structure VStatusRowJs where
  vehicle_id : Option JsValue
  soc : Option JsValue
  kwh_delivered_dc : Option JsValue
  battery_temp : Option JsValue
  last_updated : Option JsValue
  is_charging : Bool
  deriving Repr, DecidableEq

/-- A row of `meter_telemetry_history` as written by the services. -/
structure MHistRowJs where
  meter_id : Option JsValue
  kwh_consumed_ac : Option JsValue
  voltage : Option JsValue
  recorded_at : Option JsValue
  deriving Repr, DecidableEq

/-- A row of `meter_current_status` as written by the services. -/
structure MStatusRowJs where
  meter_id : Option JsValue
  kwh_consumed_ac : Option JsValue
  voltage : Option JsValue
  last_updated : Option JsValue
  deriving Repr, DecidableEq

/-- The four tables touched by ingestion.  The status lists hold at most
one row per device id (`PRIMARY KEY`), maintained by the upsert. -/
structure IngDb where
  meterHistory : List MHistRowJs
  vehicleHistory : List VHistRowJs
  meterStatus : List MStatusRowJs
  vehicleStatus : List VStatusRowJs
  deriving Repr, DecidableEq

/-- An error surfaced by an ingestion operation: a `ValidationError`
thrown by the per-field checks, or a store-level failure. -/
inductive IngestErr where
  | validation (msg : String)
  | store
  deriving Repr, DecidableEq

/-- Failure oracle: `ora i = true` means the `i`-th store statement inside
the current transaction fails. -/
def StoreOracle := ℕ → Bool

/-- The oracle under which every store statement succeeds. -/
def noFail : StoreOracle := fun _ => false

/-- `transaction` (database.js): run the body; on success `COMMIT` the
body's state, on any error `ROLLBACK`, leaving the store exactly as it
was before the transaction began. -/
def transaction {α : Type} (db : IngDb) (body : Except IngestErr (α × IngDb)) :
    Except IngestErr α × IngDb :=
  match body with
  | .ok (a, db1) => (.ok a, db1)
  | .error e => (.error e, db)

/-- `SELECT … FROM vehicle_current_status WHERE vehicle_id = $1`. -/
def findVehicleStatus (l : List VStatusRowJs) (key : Option JsValue) : Option VStatusRowJs :=
  l.find? (fun r => r.vehicle_id = key)

/-- `SELECT … FROM meter_current_status WHERE meter_id = $1`. -/
def findMeterStatus (l : List MStatusRowJs) (key : Option JsValue) : Option MStatusRowJs :=
  l.find? (fun r => r.meter_id = key)

/-- `INSERT … ON CONFLICT (vehicle_id) DO UPDATE`: replace the row with
the conflicting key if one exists, else append the new row. -/
def upsertVehicleStatus (l : List VStatusRowJs) (row : VStatusRowJs) : List VStatusRowJs :=
  if l.any (fun r => r.vehicle_id = row.vehicle_id) then
    l.map (fun r => if r.vehicle_id = row.vehicle_id then row else r)
  else
    l ++ [row]

/-- `INSERT … ON CONFLICT (meter_id) DO UPDATE` for the meter status. -/
def upsertMeterStatus (l : List MStatusRowJs) (row : MStatusRowJs) : List MStatusRowJs :=
  if l.any (fun r => r.meter_id = row.meter_id) then
    l.map (fun r => if r.meter_id = row.meter_id then row else r)
  else
    l ++ [row]

/-! ### JS truthiness, typeof checks and date parsing used by validation -/

/-- JS truthiness of a possibly-absent value (`!x` negated). -/
def jsTruthy : Option JsValue → Bool
  | none => false
  | some .null => false
  | some (.bool b) => b
  | some (.num q) => decide (q ≠ 0)
  | some (.str s) => decide (s ≠ "")
  | some (.time _) => true

/-- JS `typeof x === 'string'` (`time` values are date strings). -/
def jsIsString : Option JsValue → Bool
  | some (.str _) => true
  | some (.time _) => true
  | _ => false

/-- JS `typeof x === 'number'`. -/
def jsIsNumber : Option JsValue → Bool
  | some (.num _) => true
  | _ => false

/-- The numeric value of a field known to hold a number. -/
def jsNumVal : Option JsValue → ℚ
  | some (.num q) => q
  | _ => 0

/-- Whether `new Date(x)` yields a valid instant: date strings and
booleans always do, numbers do within the ECMAScript time range, plain
non-date strings do not. -/
def jsDateValid : Option JsValue → Bool
  | some (.time _) => true
  | some (.num q) => decide (|q| ≤ 8640000000000000)
  | some (.bool _) => true
  | _ => false

/-- JS `a > b` between a payload field and a stored field: numeric
comparison when both are numbers, `false` otherwise (comparisons
involving `undefined` or `NaN` are `false`). -/
def jsGt : Option JsValue → Option JsValue → Bool
  | some (.num a), some (.num b) => decide (b < a)
  | _, _ => false

/-- `MeterService.validateMeterData`: the checks of meterService.js in
source order, each throwing a `ValidationError` naming the field. -/
def validateMeterData (d : Payload) : Except IngestErr Unit :=
  if ¬(jsTruthy d.meterId ∧ jsIsString d.meterId) then
    .error (.validation "Invalid meterId: must be a non-empty string")
  else if ¬(jsIsNumber d.kwhConsumedAc ∧ 0 ≤ jsNumVal d.kwhConsumedAc) then
    .error (.validation "Invalid kwhConsumedAc: must be a positive number")
  else if ¬(jsIsNumber d.voltage ∧ 0 ≤ jsNumVal d.voltage) then
    .error (.validation "Invalid voltage: must be a positive number")
  else if ¬jsTruthy d.timestamp then
    .error (.validation "Invalid timestamp: timestamp is required")
  else if ¬jsDateValid d.timestamp then
    .error (.validation "Invalid timestamp: must be a valid ISO 8601 date string")
  else
    .ok ()

/-- `VehicleService.validateVehicleData`: the checks of vehicleService.js
in source order. -/
def validateVehicleData (d : Payload) : Except IngestErr Unit :=
  if ¬(jsTruthy d.vehicleId ∧ jsIsString d.vehicleId) then
    .error (.validation "Invalid vehicleId: must be a non-empty string")
  else if ¬(jsIsNumber d.soc ∧ 0 ≤ jsNumVal d.soc ∧ jsNumVal d.soc ≤ 100) then
    .error (.validation "Invalid soc: must be a number between 0 and 100")
  else if ¬(jsIsNumber d.kwhDeliveredDc ∧ 0 ≤ jsNumVal d.kwhDeliveredDc) then
    .error (.validation "Invalid kwhDeliveredDc: must be a positive number")
  else if ¬jsIsNumber d.batteryTemp then
    .error (.validation "Invalid batteryTemp: must be a number")
  else if ¬jsTruthy d.timestamp then
    .error (.validation "Invalid timestamp: timestamp is required")
  else if ¬jsDateValid d.timestamp then
    .error (.validation "Invalid timestamp: must be a valid ISO 8601 date string")
  else
    .ok ()

/-! ### Single-record ingest (dual write inside one transaction) -/

/-- The history row a vehicle payload is written as (the raw destructured
fields, in the column order of the INSERT). -/
def vehicleHistRowOf (p : Payload) : VHistRowJs :=
  ⟨p.vehicleId, p.soc, p.kwhDeliveredDc, p.batteryTemp, p.timestamp⟩

/-- The status row a vehicle payload is upserted as, given the derived
charging flag. -/
def vehicleStatusRowOf (p : Payload) (isCharging : Bool) : VStatusRowJs :=
  ⟨p.vehicleId, p.soc, p.kwhDeliveredDc, p.batteryTemp, p.timestamp, isCharging⟩

/-- The history row a meter payload is written as. -/
def meterHistRowOf (p : Payload) : MHistRowJs :=
  ⟨p.meterId, p.kwhConsumedAc, p.voltage, p.timestamp⟩

/-- The status row a meter payload is upserted as. -/
def meterStatusRowOf (p : Payload) : MStatusRowJs :=
  ⟨p.meterId, p.kwhConsumedAc, p.voltage, p.timestamp⟩

/-- The response object of `VehicleService.ingest`. -/
structure VehicleIngestResult where
  vehicleId : Option JsValue
  type : String
  stored : Bool
  timestamp : Option JsValue
  isCharging : Bool
  deriving Repr, DecidableEq

/-- The response object of `MeterService.ingest`. -/
structure MeterIngestResult where
  meterId : Option JsValue
  type : String
  stored : Bool
  timestamp : Option JsValue
  deriving Repr, DecidableEq

/-- The transaction body of `VehicleService.ingest` (vehicleService.js):
statement 0 appends the history row, statement 1 reads the prior current
status to derive `isCharging = soc > prevSoc` (`false` with no prior
row), statement 2 upserts the current status. -/
def vehicleIngestBody (p : Payload) (ora : StoreOracle) (db : IngDb) :
    Except IngestErr (VehicleIngestResult × IngDb) :=
  if ora 0 then .error .store else
  let db1 := { db with vehicleHistory := db.vehicleHistory ++ [vehicleHistRowOf p] }
  if ora 1 then .error .store else
  let prev := findVehicleStatus db1.vehicleStatus p.vehicleId
  let isCharging := match prev with
    | some st => jsGt p.soc st.soc
    | none => false
  if ora 2 then .error .store else
  .ok (⟨p.vehicleId, "vehicle", true, p.timestamp, isCharging⟩,
    { db1 with
      vehicleStatus := upsertVehicleStatus db1.vehicleStatus (vehicleStatusRowOf p isCharging) })

/-- `VehicleService.ingest`: validate, then run the dual write in one
transaction. -/
def vehicleIngest (p : Payload) (ora : StoreOracle) (db : IngDb) :
    Except IngestErr VehicleIngestResult × IngDb :=
  match validateVehicleData p with
  | .error e => (.error e, db)
  | .ok () => transaction db (vehicleIngestBody p ora db)

/-- The transaction body of `MeterService.ingest`: statement 0 appends
the history row, statement 1 upserts the current status. -/
def meterIngestBody (p : Payload) (ora : StoreOracle) (db : IngDb) :
    Except IngestErr (MeterIngestResult × IngDb) :=
  if ora 0 then .error .store else
  let db1 := { db with meterHistory := db.meterHistory ++ [meterHistRowOf p] }
  if ora 1 then .error .store else
  .ok (⟨p.meterId, "meter", true, p.timestamp⟩,
    { db1 with meterStatus := upsertMeterStatus db1.meterStatus (meterStatusRowOf p) })

/-- `MeterService.ingest`: validate, then run the dual write in one
transaction. -/
def meterIngest (p : Payload) (ora : StoreOracle) (db : IngDb) :
    Except IngestErr MeterIngestResult × IngDb :=
  match validateMeterData p with
  | .error e => (.error e, db)
  | .ok () => transaction db (meterIngestBody p ora db)

/-! ### Batch ingest -/

/-- The response object of the service-level `ingestBatch`. -/
structure BatchCount where
  count : ℕ
  deriving Repr, DecidableEq

/-- The per-record status upserts of `VehicleService.ingestBatch`
(statements `i, i+1, …` of the transaction): every record is upserted
with the literal `false` passed as `is_charging`. -/
def vehicleBatchUpserts (batch : List Payload) (ora : StoreOracle) (i : ℕ)
    (status : List VStatusRowJs) : Except IngestErr (List VStatusRowJs) :=
  match batch with
  | [] => .ok status
  | v :: rest =>
    if ora i then .error .store
    else vehicleBatchUpserts rest ora (i + 1)
      (upsertVehicleStatus status (vehicleStatusRowOf v false))

/-- The transaction body of `VehicleService.ingestBatch`: statement 0 is
the one multi-row history insert of the raw record fields; then the
status upserts run in sequence in the same transaction. -/
def vehicleBatchBody (batch : List Payload) (ora : StoreOracle) (db : IngDb) :
    Except IngestErr (BatchCount × IngDb) :=
  if ora 0 then .error .store else
  let db1 := { db with vehicleHistory := db.vehicleHistory ++ batch.map vehicleHistRowOf }
  match vehicleBatchUpserts batch ora 1 db1.vehicleStatus with
  | .error e => .error e
  | .ok st => .ok (⟨batch.length⟩, { db1 with vehicleStatus := st })

/-- `VehicleService.ingestBatch`: an empty (or missing) batch returns
`{count: 0}` without touching the store; otherwise the whole batch is one
transaction.  No per-field validation is performed. -/
def vehicleIngestBatch (batch : List Payload) (ora : StoreOracle) (db : IngDb) :
    Except IngestErr BatchCount × IngDb :=
  if batch.isEmpty then (.ok ⟨0⟩, db)
  else transaction db (vehicleBatchBody batch ora db)

/-- The per-record status upserts of `MeterService.ingestBatch`. -/
def meterBatchUpserts (batch : List Payload) (ora : StoreOracle) (i : ℕ)
    (status : List MStatusRowJs) : Except IngestErr (List MStatusRowJs) :=
  match batch with
  | [] => .ok status
  | m :: rest =>
    if ora i then .error .store
    else meterBatchUpserts rest ora (i + 1) (upsertMeterStatus status (meterStatusRowOf m))

/-- The transaction body of `MeterService.ingestBatch`. -/
def meterBatchBody (batch : List Payload) (ora : StoreOracle) (db : IngDb) :
    Except IngestErr (BatchCount × IngDb) :=
  if ora 0 then .error .store else
  let db1 := { db with meterHistory := db.meterHistory ++ batch.map meterHistRowOf }
  match meterBatchUpserts batch ora 1 db1.meterStatus with
  | .error e => .error e
  | .ok st => .ok (⟨batch.length⟩, { db1 with meterStatus := st })

/-- `MeterService.ingestBatch`. -/
def meterIngestBatch (batch : List Payload) (ora : StoreOracle) (db : IngDb) :
    Except IngestErr BatchCount × IngDb :=
  if batch.isEmpty then (.ok ⟨0⟩, db)
  else transaction db (meterBatchBody batch ora db)

/-! ### Batch controller -/

/-- The parsed JSON body of `POST /v1/ingest/batch`: either an array of
payload objects or some non-array value. -/
inductive BatchBody where
  | arr (items : List Payload)
  | nonArray (v : JsValue)
  deriving Repr, DecidableEq

/-- The `data` object of a successful batch response. -/
structure BatchRespData where
  total : ℕ
  meters : ℕ
  vehicles : ℕ
  errors : List IngestErr
  deriving Repr, DecidableEq

/-- The HTTP outcome of the batch endpoint: `badRequest` is the `400`
rejection, `created` the `201` success envelope. -/
inductive BatchResponse where
  | badRequest (msg : String)
  | created (data : BatchRespData)
  deriving Repr, DecidableEq

/-- `IngestionController.ingestBatch` (ingestionController.js): reject a
non-array or empty body with `400`; otherwise partition the items by
`identifyTelemetryType` (unknown items are silently dropped), run each
sub-batch through its service (they write disjoint tables, so the
parallel `Promise.allSettled` is modelled by running the meter sub-batch
first), and report the fulfilled counts plus the rejection messages. -/
def controllerIngestBatch (body : BatchBody) (oraM oraV : StoreOracle) (db : IngDb) :
    BatchResponse × IngDb :=
  match body with
  | .nonArray _ => (.badRequest "Invalid batch data: expected non-empty array", db)
  | .arr [] => (.badRequest "Invalid batch data: expected non-empty array", db)
  | .arr items =>
    let meterBatch := items.filter (fun d => identifyTelemetryType d = .meter)
    let vehicleBatch := items.filter (fun d => identifyTelemetryType d = .vehicle)
    let mOut := meterIngestBatch meterBatch oraM db
    let vOut := vehicleIngestBatch vehicleBatch oraV mOut.2
    let mCount := match mOut.1 with | .ok r => r.count | .error _ => 0
    let vCount := match vOut.1 with | .ok r => r.count | .error _ => 0
    let errs := (match mOut.1 with | .error e => [e] | .ok _ => []) ++
                (match vOut.1 with | .error e => [e] | .ok _ => [])
    (.created ⟨mCount + vCount, mCount, vCount, errs⟩, vOut.2)

/-! ## Ingestion: concrete inputs for witnesses -/

/-- The empty store. -/
def emptyIngDb : IngDb := ⟨[], [], [], []⟩

/-- A well-formed vehicle payload for `V1` with the given state of charge
and timestamp. -/
def vPayload (s : ℚ) (ts : ℤ) : Payload :=
  { vehicleId := some (.str "V1"), soc := some (.num s), kwhDeliveredDc := some (.num 5),
    batteryTemp := some (.num 25), timestamp := some (.time ts) }

/-- An oracle failing exactly the third statement of a transaction (the
status upsert of the single-vehicle dual write). -/
def failThird : StoreOracle := fun i => decide (i = 2)

/-! ## C7: the batch endpoint rejects empty or non-array input -/

/-- **C7.** Every batch request whose body is not an array, or is the
empty array, is rejected with the validation message and the store is
untouched; it never succeeds with a count. -/
theorem batch_rejects_empty_input (b : BatchBody) (oraM oraV : StoreOracle) (db : IngDb)
    (h : b = .arr [] ∨ ∃ v, b = .nonArray v) :
    controllerIngestBatch b oraM oraV db =
      (.badRequest "Invalid batch data: expected non-empty array", db) := by
  rcases h with rfl | ⟨v, rfl⟩ <;> rfl

/-- Witness for C7: the empty array and a non-array body are both
rejected. -/
theorem batch_rejects_empty_input_witness :
    controllerIngestBatch (.arr []) noFail noFail emptyIngDb =
      (.badRequest "Invalid batch data: expected non-empty array", emptyIngDb) ∧
    controllerIngestBatch (.nonArray (.num 7)) noFail noFail emptyIngDb =
      (.badRequest "Invalid batch data: expected non-empty array", emptyIngDb) :=
  ⟨batch_rejects_empty_input (.arr []) noFail noFail emptyIngDb (Or.inl rfl),
   batch_rejects_empty_input (.nonArray (.num 7)) noFail noFail emptyIngDb
     (Or.inr ⟨.num 7, rfl⟩)⟩

/-! ## C3: the dual write is atomic -/

/-- The vehicle half of the atomicity contract: on any error the store is
exactly as before; on success the history gained exactly the new row and
the status table is the upsert of the new reading. -/
lemma vehicleIngest_atomic (p : Payload) (ora : StoreOracle) (db : IngDb) :
    (∀ e, (vehicleIngest p ora db).1 = .error e → (vehicleIngest p ora db).2 = db) ∧
    (∀ r, (vehicleIngest p ora db).1 = .ok r →
      (vehicleIngest p ora db).2 =
        { db with
          vehicleHistory := db.vehicleHistory ++ [vehicleHistRowOf p]
          vehicleStatus :=
            upsertVehicleStatus db.vehicleStatus (vehicleStatusRowOf p r.isCharging) }) := by
  unfold vehicleIngest
  rcases hval : validateVehicleData p with e | u
  · exact ⟨fun _ _ => rfl, fun r hr => by simp at hr⟩
  · unfold transaction vehicleIngestBody
    by_cases h0 : ora 0 = true <;> simp [h0]
    by_cases h1 : ora 1 = true <;> simp [h1]
    by_cases h2 : ora 2 = true <;> simp [h2]

/-- The meter half of the atomicity contract. -/
lemma meterIngest_atomic (p : Payload) (ora : StoreOracle) (db : IngDb) :
    (∀ e, (meterIngest p ora db).1 = .error e → (meterIngest p ora db).2 = db) ∧
    (∀ r, (meterIngest p ora db).1 = .ok r →
      (meterIngest p ora db).2 =
        { db with
          meterHistory := db.meterHistory ++ [meterHistRowOf p]
          meterStatus := upsertMeterStatus db.meterStatus (meterStatusRowOf p) }) := by
  unfold meterIngest
  rcases hval : validateMeterData p with e | u
  · exact ⟨fun _ _ => rfl, fun r hr => by simp at hr⟩
  · unfold transaction meterIngestBody
    by_cases h0 : ora 0 = true <;> simp [h0]
    by_cases h1 : ora 1 = true <;> simp [h1]

/-- **C3.** For both device classes, the history append and the status
upsert of one accepted reading commit as one atomic unit: if the
operation fails (validation or any store statement), the whole store —
in particular both tables — is unchanged; if it succeeds, the history
holds exactly the appended reading and the status table is the keyed
upsert of that reading. -/
theorem dual_write_atomic (p : Payload) (ora : StoreOracle) (db : IngDb) :
    ((∀ e, (vehicleIngest p ora db).1 = .error e → (vehicleIngest p ora db).2 = db) ∧
     (∀ r, (vehicleIngest p ora db).1 = .ok r →
       (vehicleIngest p ora db).2 =
         { db with
           vehicleHistory := db.vehicleHistory ++ [vehicleHistRowOf p]
           vehicleStatus :=
             upsertVehicleStatus db.vehicleStatus (vehicleStatusRowOf p r.isCharging) })) ∧
    ((∀ e, (meterIngest p ora db).1 = .error e → (meterIngest p ora db).2 = db) ∧
     (∀ r, (meterIngest p ora db).1 = .ok r →
       (meterIngest p ora db).2 =
         { db with
           meterHistory := db.meterHistory ++ [meterHistRowOf p]
           meterStatus := upsertMeterStatus db.meterStatus (meterStatusRowOf p) })) :=
  ⟨vehicleIngest_atomic p ora db, meterIngest_atomic p ora db⟩

/-- Witness for C3: ingesting a concrete vehicle reading into the empty
store with a failing status upsert leaves the store empty, and with no
failure produces exactly the appended history row and the upserted
status row. -/
theorem dual_write_atomic_witness :
    (vehicleIngest (vPayload 40 1) failThird emptyIngDb).2 = emptyIngDb ∧
    (vehicleIngest (vPayload 40 1) noFail emptyIngDb).2 =
      { emptyIngDb with
        vehicleHistory := [vehicleHistRowOf (vPayload 40 1)]
        vehicleStatus :=
          upsertVehicleStatus [] (vehicleStatusRowOf (vPayload 40 1) false) } :=
  ⟨(dual_write_atomic (vPayload 40 1) failThird emptyIngDb).1.1 .store rfl,
   (dual_write_atomic (vPayload 40 1) noFail emptyIngDb).1.2
     ⟨some (.str "V1"), "vehicle", true, some (.time 1), false⟩ rfl⟩

/-! ## C9: batch ingest performs no per-field validation -/

/-- The batch status-upsert loop never throws a `ValidationError`: its
only failure mode is a store-level one. -/
lemma vehicleBatchUpserts_error (batch : List Payload) (ora : StoreOracle) :
    ∀ (i : ℕ) (st : List VStatusRowJs) (e : IngestErr),
      vehicleBatchUpserts batch ora i st = .error e → e = .store := by
  induction batch with
  | nil => intro i st e h; simp [vehicleBatchUpserts] at h
  | cons v rest ih =>
    intro i st e h
    unfold vehicleBatchUpserts at h
    by_cases hi : ora i = true
    · simp [hi] at h; exact h.symm
    · simp [hi] at h; exact ih _ _ _ h

/-- The meter batch upsert loop likewise fails only at store level. -/
lemma meterBatchUpserts_error (batch : List Payload) (ora : StoreOracle) :
    ∀ (i : ℕ) (st : List MStatusRowJs) (e : IngestErr),
      meterBatchUpserts batch ora i st = .error e → e = .store := by
  induction batch with
  | nil => intro i st e h; simp [meterBatchUpserts] at h
  | cons v rest ih =>
    intro i st e h
    unfold meterBatchUpserts at h
    by_cases hi : ora i = true
    · simp [hi] at h; exact h.symm
    · simp [hi] at h; exact ih _ _ _ h

/-- Under a non-failing store the vehicle upsert loop succeeds. -/
lemma vehicleBatchUpserts_noFail (batch : List Payload) :
    ∀ (i : ℕ) (st : List VStatusRowJs), ∃ st1,
      vehicleBatchUpserts batch noFail i st = .ok st1 := by
  induction batch with
  | nil => intro i st; exact ⟨st, rfl⟩
  | cons v rest ih =>
    intro i st
    simpa [vehicleBatchUpserts, noFail] using
      ih (i + 1) (upsertVehicleStatus st (vehicleStatusRowOf v false))

/-- Under a non-failing store the meter upsert loop succeeds. -/
lemma meterBatchUpserts_noFail (batch : List Payload) :
    ∀ (i : ℕ) (st : List MStatusRowJs), ∃ st1,
      meterBatchUpserts batch noFail i st = .ok st1 := by
  induction batch with
  | nil => intro i st; exact ⟨st, rfl⟩
  | cons m rest ih =>
    intro i st
    simpa [meterBatchUpserts, noFail] using
      ih (i + 1) (upsertMeterStatus st (meterStatusRowOf m))

/-- Case analysis of a non-empty vehicle batch: it either rolls back with
a store error, or commits the full history append together with the
upserted statuses. -/
lemma vehicleIngestBatch_cases (batch : List Payload) (ora : StoreOracle) (db : IngDb)
    (hne : batch.isEmpty = false) :
    (∃ e, vehicleIngestBatch batch ora db = (.error e, db) ∧ e = .store) ∨
    (∃ st1, vehicleBatchUpserts batch ora 1 db.vehicleStatus = .ok st1 ∧
      vehicleIngestBatch batch ora db =
        (.ok ⟨batch.length⟩,
         { db with
           vehicleHistory := db.vehicleHistory ++ batch.map vehicleHistRowOf
           vehicleStatus := st1 })) := by
  unfold vehicleIngestBatch
  rw [if_neg (by simp [hne])]
  unfold transaction vehicleBatchBody
  by_cases h0 : ora 0 = true
  · rw [if_pos h0]
    exact Or.inl ⟨.store, rfl, rfl⟩
  · rw [if_neg h0]
    dsimp only
    rcases hup : vehicleBatchUpserts batch ora 1 db.vehicleStatus with e1 | st1
    · exact Or.inl ⟨e1, rfl, vehicleBatchUpserts_error batch ora 1 db.vehicleStatus e1 hup⟩
    · exact Or.inr ⟨st1, rfl, rfl⟩

/-- Case analysis of a non-empty meter batch. -/
lemma meterIngestBatch_cases (batch : List Payload) (ora : StoreOracle) (db : IngDb)
    (hne : batch.isEmpty = false) :
    (∃ e, meterIngestBatch batch ora db = (.error e, db) ∧ e = .store) ∨
    (∃ st1, meterBatchUpserts batch ora 1 db.meterStatus = .ok st1 ∧
      meterIngestBatch batch ora db =
        (.ok ⟨batch.length⟩,
         { db with
           meterHistory := db.meterHistory ++ batch.map meterHistRowOf
           meterStatus := st1 })) := by
  unfold meterIngestBatch
  rw [if_neg (by simp [hne])]
  unfold transaction meterBatchBody
  by_cases h0 : ora 0 = true
  · rw [if_pos h0]
    exact Or.inl ⟨.store, rfl, rfl⟩
  · rw [if_neg h0]
    dsimp only
    rcases hup : meterBatchUpserts batch ora 1 db.meterStatus with e1 | st1
    · exact Or.inl ⟨e1, rfl, meterBatchUpserts_error batch ora 1 db.meterStatus e1 hup⟩
    · exact Or.inr ⟨st1, rfl, rfl⟩

/-- A non-empty vehicle batch under a non-failing store: success with the
full count and the raw history append. -/
lemma vehicleIngestBatch_noFail_run (batch : List Payload) (db : IngDb)
    (hne : batch.isEmpty = false) :
    ∃ st1, vehicleIngestBatch batch noFail db =
      (.ok ⟨batch.length⟩,
       { db with
         vehicleHistory := db.vehicleHistory ++ batch.map vehicleHistRowOf
         vehicleStatus := st1 }) := by
  rcases vehicleIngestBatch_cases batch noFail db hne with ⟨e, heq, rfl⟩ | ⟨st1, hup, heq⟩
  · obtain ⟨st1, hok⟩ := vehicleBatchUpserts_noFail batch 1 db.vehicleStatus
    unfold vehicleIngestBatch at heq
    rw [if_neg (by simp [hne])] at heq
    unfold transaction vehicleBatchBody at heq
    rw [if_neg (by simp [noFail])] at heq
    dsimp only at heq
    rw [hok] at heq
    simp at heq
  · exact ⟨st1, heq⟩

/-- A non-empty meter batch under a non-failing store. -/
lemma meterIngestBatch_noFail_run (batch : List Payload) (db : IngDb)
    (hne : batch.isEmpty = false) :
    ∃ st1, meterIngestBatch batch noFail db =
      (.ok ⟨batch.length⟩,
       { db with
         meterHistory := db.meterHistory ++ batch.map meterHistRowOf
         meterStatus := st1 }) := by
  rcases meterIngestBatch_cases batch noFail db hne with ⟨e, heq, rfl⟩ | ⟨st1, hup, heq⟩
  · obtain ⟨st1, hok⟩ := meterBatchUpserts_noFail batch 1 db.meterStatus
    unfold meterIngestBatch at heq
    rw [if_neg (by simp [hne])] at heq
    unfold transaction meterBatchBody at heq
    rw [if_neg (by simp [noFail])] at heq
    dsimp only at heq
    rw [hok] at heq
    simp at heq
  · exact ⟨st1, heq⟩

/-- **C9.** `ingestBatch` (meter and vehicle alike) performs none of the
per-field validation of the single path: whatever the records contain —
out-of-range, wrongly typed or missing fields — a failing outcome can
only be a store-level error, never a `ValidationError`; and when the
store does not fail, the batch succeeds with the full count and appends
every record's raw field values unchanged to the history table. -/
theorem batch_skips_validation (batch : List Payload) (ora : StoreOracle) (db : IngDb)
    (hne : batch ≠ []) :
    (∀ e, (vehicleIngestBatch batch ora db).1 = .error e → e = .store) ∧
    (∀ e, (meterIngestBatch batch ora db).1 = .error e → e = .store) ∧
    (vehicleIngestBatch batch noFail db).1 = .ok ⟨batch.length⟩ ∧
    (vehicleIngestBatch batch noFail db).2.vehicleHistory =
      db.vehicleHistory ++ batch.map vehicleHistRowOf ∧
    (meterIngestBatch batch noFail db).1 = .ok ⟨batch.length⟩ ∧
    (meterIngestBatch batch noFail db).2.meterHistory =
      db.meterHistory ++ batch.map meterHistRowOf := by
  have hemp : batch.isEmpty = false := by
    cases batch with
    | nil => exact absurd rfl hne
    | cons a l => rfl
  obtain ⟨stv, hv⟩ := vehicleIngestBatch_noFail_run batch db hemp
  obtain ⟨stm, hm⟩ := meterIngestBatch_noFail_run batch db hemp
  refine ⟨?_, ?_, ?_, ?_, ?_, ?_⟩
  · intro e h
    rcases vehicleIngestBatch_cases batch ora db hemp with ⟨e1, heq, rfl⟩ | ⟨st1, _, heq⟩
    · rw [heq] at h
      exact (Except.error.inj h).symm
    · rw [heq] at h
      simp at h
  · intro e h
    rcases meterIngestBatch_cases batch ora db hemp with ⟨e1, heq, rfl⟩ | ⟨st1, _, heq⟩
    · rw [heq] at h
      exact (Except.error.inj h).symm
    · rw [heq] at h
      simp at h
  · rw [hv]
  · rw [hv]
  · rw [hm]
  · rw [hm]

/-- A malformed vehicle record: `soc` far out of range and every other
field (including the timestamp) missing.  The single-record path rejects
it; the batch path stores it as-is. -/
def badVehicleRecord : Payload :=
  { vehicleId := some (.str "V1"), soc := some (.num 150) }

/-- Witness for C9: a one-record batch holding the malformed record is
accepted with count 1 and its raw fields land in the history table. -/
theorem batch_skips_validation_witness :
    (vehicleIngestBatch [badVehicleRecord] noFail emptyIngDb).1 = .ok ⟨1⟩ ∧
    (vehicleIngestBatch [badVehicleRecord] noFail emptyIngDb).2.vehicleHistory =
      [vehicleHistRowOf badVehicleRecord] := by
  have h := batch_skips_validation [badVehicleRecord] noFail emptyIngDb (by simp)
  exact ⟨h.2.2.1, by simpa using h.2.2.2.1⟩

/-! ## C5: batch-path charging flag is hard-coded false -/

/-- Replacing all rows with the upserted key, then looking that key up,
finds the replacement — provided some row held the key. -/
lemma find?_replace_self (l : List VStatusRowJs) (row : VStatusRowJs)
    (h : l.any (fun s => s.vehicle_id = row.vehicle_id) = true) :
    (l.map (fun s => if s.vehicle_id = row.vehicle_id then row else s)).find?
      (fun s => s.vehicle_id = row.vehicle_id) = some row := by
  induction l with
  | nil => simp at h
  | cons r t ih =>
    by_cases hr : r.vehicle_id = row.vehicle_id
    · simp only [List.map_cons, if_pos hr]
      exact List.find?_cons_of_pos _ (by simp)
    · simp only [List.any_cons, decide_eq_true_eq, hr, Bool.false_or,
        decide_eq_false_iff_not.mpr hr] at h
      simp only [List.map_cons, if_neg hr]
      rw [List.find?_cons_of_neg _ (by simpa using hr)]
      exact ih h

/-- Replacing all rows with the upserted key leaves lookups of any other
key unchanged. -/
lemma find?_replace_other (l : List VStatusRowJs) (row : VStatusRowJs)
    (key : Option JsValue) (hk : ¬(row.vehicle_id = key)) :
    (l.map (fun s => if s.vehicle_id = row.vehicle_id then row else s)).find?
        (fun s => s.vehicle_id = key) =
      l.find? (fun s => s.vehicle_id = key) := by
  induction l with
  | nil => rfl
  | cons r t ih =>
    by_cases hr : r.vehicle_id = row.vehicle_id
    · have hrk : ¬(r.vehicle_id = key) := by rw [hr]; exact hk
      simp only [List.map_cons, if_pos hr]
      rw [List.find?_cons_of_neg _ (by simpa using hk),
        List.find?_cons_of_neg _ (by simpa using hrk)]
      exact ih
    · simp only [List.map_cons, if_neg hr]
      by_cases hrk : r.vehicle_id = key
      · rw [List.find?_cons_of_pos _ (by simpa using hrk),
          List.find?_cons_of_pos _ (by simpa using hrk)]
      · rw [List.find?_cons_of_neg _ (by simpa using hrk),
          List.find?_cons_of_neg _ (by simpa using hrk)]
        exact ih

/-- After upserting a row, looking its key up finds exactly that row. -/
lemma findVehicleStatus_upsert_self (l : List VStatusRowJs) (row : VStatusRowJs) :
    findVehicleStatus (upsertVehicleStatus l row) row.vehicle_id = some row := by
  unfold upsertVehicleStatus findVehicleStatus
  by_cases hany : l.any (fun s => s.vehicle_id = row.vehicle_id) = true
  · rw [if_pos hany]
    exact find?_replace_self l row hany
  · rw [if_neg hany, List.find?_append]
    have hfalse : l.any (fun s => s.vehicle_id = row.vehicle_id) = false :=
      Bool.eq_false_iff.mpr hany
    have hnone : l.find? (fun s => s.vehicle_id = row.vehicle_id) = none :=
      List.find?_eq_none.mpr (List.any_eq_false.mp hfalse)
    rw [hnone]
    simp

/-- Upserting a row with a different key does not change what a lookup of
that key finds. -/
lemma findVehicleStatus_upsert_other (l : List VStatusRowJs) (row : VStatusRowJs)
    (key : Option JsValue) (hk : ¬(row.vehicle_id = key)) :
    findVehicleStatus (upsertVehicleStatus l row) key = findVehicleStatus l key := by
  unfold upsertVehicleStatus findVehicleStatus
  by_cases hany : l.any (fun s => s.vehicle_id = row.vehicle_id) = true
  · rw [if_pos hany]
    exact find?_replace_other l row key hk
  · rw [if_neg hany, List.find?_append]
    have : List.find? (fun s => s.vehicle_id = key) [row] = none := by
      simp [List.find?, decide_eq_false hk]
    rw [this]
    cases l.find? (fun s => s.vehicle_id = key) <;> rfl

/-- The cumulative effect of the batch status-upsert loop on the status
table. -/
def vehicleBatchFold (batch : List Payload) (st : List VStatusRowJs) : List VStatusRowJs :=
  batch.foldl (fun s v => upsertVehicleStatus s (vehicleStatusRowOf v false)) st

/-- Under a non-failing store the upsert loop computes exactly the fold
of per-record upserts. -/
lemma vehicleBatchUpserts_noFail_eq (batch : List Payload) :
    ∀ (i : ℕ) (st : List VStatusRowJs),
      vehicleBatchUpserts batch noFail i st = .ok (vehicleBatchFold batch st) := by
  induction batch with
  | nil => intro i st; rfl
  | cons v rest ih =>
    intro i st
    simpa [vehicleBatchUpserts, noFail, vehicleBatchFold] using
      ih (i + 1) (upsertVehicleStatus st (vehicleStatusRowOf v false))

/-- Records for other keys do not disturb a key's status row. -/
lemma vehicleBatchFold_preserve (batch : List Payload) (key : Option JsValue) :
    ∀ (st : List VStatusRowJs), (∀ v ∈ batch, ¬(v.vehicleId = key)) →
      findVehicleStatus (vehicleBatchFold batch st) key = findVehicleStatus st key := by
  induction batch with
  | nil => intro st _; rfl
  | cons v rest ih =>
    intro st h
    have hv : ¬(v.vehicleId = key) := h v (by simp)
    calc findVehicleStatus (vehicleBatchFold rest
            (upsertVehicleStatus st (vehicleStatusRowOf v false))) key
        = findVehicleStatus (upsertVehicleStatus st (vehicleStatusRowOf v false)) key :=
          ih _ (fun w hw => h w (by simp [hw]))
      _ = findVehicleStatus st key := findVehicleStatus_upsert_other _ _ _ hv

/-- After folding a batch over any starting status table, every key
occurring in the batch holds a row whose charging flag is `false`. -/
lemma vehicleBatchFold_false (batch : List Payload) (key : Option JsValue) :
    ∀ (st : List VStatusRowJs), key ∈ batch.map (fun v => v.vehicleId) →
      ∃ row, findVehicleStatus (vehicleBatchFold batch st) key = some row ∧
        row.is_charging = false := by
  induction batch with
  | nil => intro st hk; simp at hk
  | cons v rest ih =>
    intro st hk
    by_cases hmem : key ∈ rest.map (fun v => v.vehicleId)
    · exact ih _ hmem
    · have hkv : v.vehicleId = key := by
        rcases List.mem_map.mp hk with ⟨w, hw, hweq⟩
        rcases List.mem_cons.mp hw with rfl | hwr
        · exact hweq
        · exact absurd (List.mem_map.mpr ⟨w, hwr, hweq⟩) hmem
      refine ⟨vehicleStatusRowOf v false, ?_, rfl⟩
      have hpres : findVehicleStatus (vehicleBatchFold rest
            (upsertVehicleStatus st (vehicleStatusRowOf v false))) key =
          findVehicleStatus (upsertVehicleStatus st (vehicleStatusRowOf v false)) key :=
        vehicleBatchFold_preserve rest key _ (by
          intro w hw hweq
          exact hmem (List.mem_map.mpr ⟨w, hw, hweq⟩))
      show findVehicleStatus (vehicleBatchFold (v :: rest) st) key = _
      rw [show vehicleBatchFold (v :: rest) st =
            vehicleBatchFold rest (upsertVehicleStatus st (vehicleStatusRowOf v false)) from rfl,
        hpres, ← hkv]
      exact findVehicleStatus_upsert_self st (vehicleStatusRowOf v false)

/-- **C5.** Every vehicle id occurring in a committed batch ends up with
a CurrentStatus row whose `isCharging` is `false`, whatever the prior
status table held: the batch path hard-codes `false` and never performs
the prior-status comparison of the single-ingest path. -/
theorem batch_charging_always_false (batch : List Payload) (db : IngDb)
    (key : Option JsValue) (hk : key ∈ batch.map (fun v => v.vehicleId)) :
    ∃ row, findVehicleStatus (vehicleIngestBatch batch noFail db).2.vehicleStatus key =
        some row ∧ row.is_charging = false := by
  have hne : batch.isEmpty = false := by
    cases batch with
    | nil => simp at hk
    | cons a l => rfl
  unfold vehicleIngestBatch
  rw [if_neg (by simp [hne])]
  unfold transaction vehicleBatchBody
  rw [if_neg (by simp [noFail])]
  dsimp only
  rw [vehicleBatchUpserts_noFail_eq]
  exact vehicleBatchFold_false batch key db.vehicleStatus hk

/-- A store whose status table says `V1` is charging at 90 % state of
charge. -/
def priorChargedDb : IngDb :=
  { emptyIngDb with
    vehicleStatus :=
      [⟨some (.str "V1"), some (.num 90), some (.num 5), some (.num 25),
        some (.time 0), true⟩] }

/-- Witness for C5: batch-ingesting a lower-soc `V1` reading over a
status row that says charging leaves `V1` not charging. -/
theorem batch_charging_always_false_witness :
    ∃ row, findVehicleStatus
        (vehicleIngestBatch [vPayload 40 1] noFail priorChargedDb).2.vehicleStatus
        (some (.str "V1")) = some row ∧ row.is_charging = false :=
  batch_charging_always_false [vPayload 40 1] priorChargedDb (some (.str "V1"))
    (by simp [vPayload])

/-! ## C4: the single-ingest charging flag -/

/-- A well-typed vehicle reading, as the single-ingest validation admits
it. -/
structure VehicleIn where
  soc : ℚ
  kwh : ℚ
  temp : ℚ
  ts : ℤ
  deriving Repr, DecidableEq

/-- The payload a client submits for such a reading. -/
def payloadOf (vid : String) (r : VehicleIn) : Payload :=
  { vehicleId := some (.str vid), soc := some (.num r.soc),
    kwhDeliveredDc := some (.num r.kwh), batteryTemp := some (.num r.temp),
    timestamp := some (.time r.ts) }

/-- The range constraints of `validateVehicleData` on a well-typed
reading. -/
def ValidIn (r : VehicleIn) : Prop := 0 ≤ r.soc ∧ r.soc ≤ 100 ∧ 0 ≤ r.kwh

/-- The response of a successful single vehicle ingest. -/
def resultOf (vid : String) (r : VehicleIn) (b : Bool) : VehicleIngestResult :=
  ⟨some (.str vid), "vehicle", true, some (.time r.ts), b⟩

/-- The charging flag the dual write derives: compare the new soc with the
prior status row's soc, `false` when the device has no prior row. -/
def chargeFlagOf (db : IngDb) (vid : String) (s : ℚ) : Bool :=
  match findVehicleStatus db.vehicleStatus (some (.str vid)) with
  | some st => jsGt (some (.num s)) st.soc
  | none => false

/-- A sequence of single-record ingests executed in order against a
non-failing store, collecting each response. -/
def runVehicleIngests : List Payload → IngDb → List (Except IngestErr VehicleIngestResult) × IngDb
  | [], db => ([], db)
  | p :: rest, db =>
    let out := vehicleIngest p noFail db
    let outs := runVehicleIngests rest out.2
    (out.1 :: outs.1, outs.2)

/-- A valid reading passes `validateVehicleData`. -/
lemma validate_payloadOf (vid : String) (r : VehicleIn) (hvid : vid ≠ "") (hr : ValidIn r) :
    validateVehicleData (payloadOf vid r) = .ok () := by
  obtain ⟨h1, h2, h3⟩ := hr
  simp [validateVehicleData, payloadOf, jsTruthy, jsIsString, jsIsNumber, jsNumVal,
    jsDateValid, hvid, h1, h2, h3]

/-- One valid single ingest against a non-failing store: it succeeds with
the derived charging flag and performs exactly the dual write. -/
lemma vehicleIngest_valid_run (vid : String) (r : VehicleIn) (db : IngDb)
    (hvid : vid ≠ "") (hr : ValidIn r) :
    vehicleIngest (payloadOf vid r) noFail db =
      (.ok (resultOf vid r (chargeFlagOf db vid r.soc)),
       { db with
         vehicleHistory := db.vehicleHistory ++ [vehicleHistRowOf (payloadOf vid r)]
         vehicleStatus := upsertVehicleStatus db.vehicleStatus
           (vehicleStatusRowOf (payloadOf vid r) (chargeFlagOf db vid r.soc)) }) := by
  unfold vehicleIngest
  rw [validate_payloadOf vid r hvid hr]
  unfold transaction vehicleIngestBody
  simp only [noFail, Bool.false_eq_true, if_false]
  cases hfind : findVehicleStatus db.vehicleStatus (some (.str vid)) with
  | none => simp [payloadOf, chargeFlagOf, hfind, resultOf]
  | some st => simp [payloadOf, chargeFlagOf, hfind, resultOf]

/-- Tail of an increasing sequence: once the status row holds a soc below
every following reading, each following single ingest reports
`isCharging = true`. -/
lemma runVehicleIngests_all_charging (vid : String) (hvid : vid ≠ "") :
    ∀ (rs : List VehicleIn) (db : IngDb) (st : VStatusRowJs) (q : ℚ),
      findVehicleStatus db.vehicleStatus (some (.str vid)) = some st →
      st.soc = some (.num q) →
      (∀ r ∈ rs, ValidIn r) →
      List.Chain (fun a b => a < b) q (rs.map (fun r => r.soc)) →
      (runVehicleIngests (rs.map (payloadOf vid)) db).1 =
        rs.map (fun r => .ok (resultOf vid r true)) := by
  intro rs
  induction rs with
  | nil => intro db st q _ _ _ _; rfl
  | cons r rest ih =>
    intro db st q hfind hsoc hvalid hchain
    have hr : ValidIn r := hvalid r (by simp)
    rcases List.chain_cons.mp (by simpa using hchain) with ⟨hq, htail⟩
    have hflag : chargeFlagOf db vid r.soc = true := by
      simp [chargeFlagOf, hfind, hsoc, jsGt, hq]
    rw [List.map_cons]
    show ((vehicleIngest (payloadOf vid r) noFail db).1 ::
        (runVehicleIngests (rest.map (payloadOf vid))
          (vehicleIngest (payloadOf vid r) noFail db).2).1, _).1 = _
    rw [vehicleIngest_valid_run vid r db hvid hr, hflag]
    have hfind1 : findVehicleStatus
        (upsertVehicleStatus db.vehicleStatus (vehicleStatusRowOf (payloadOf vid r) true))
        (some (.str vid)) = some (vehicleStatusRowOf (payloadOf vid r) true) :=
      findVehicleStatus_upsert_self db.vehicleStatus (vehicleStatusRowOf (payloadOf vid r) true)
    rw [List.map_cons]
    dsimp only
    congr 1
    exact ih _ (vehicleStatusRowOf (payloadOf vid r) true) r.soc hfind1 rfl
      (fun w hw => hvalid w (by simp [hw])) htail

/-- **C4.** For a single-record vehicle ingest, `isCharging` equals
`new soc > prior soc` when a prior CurrentStatus row exists and `false`
on a first-ever ingest; hence in any sequence of single ingests of one
vehicle with strictly increasing soc starting from no prior row, the
first response reports `isCharging = false` and every later one reports
`isCharging = true`. -/
theorem isCharging_from_prior_soc (vid : String) (hvid : vid ≠ "") :
    (∀ (r : VehicleIn) (db : IngDb), ValidIn r →
      (findVehicleStatus db.vehicleStatus (some (.str vid)) = none →
        (vehicleIngest (payloadOf vid r) noFail db).1 = .ok (resultOf vid r false) ∧
        findVehicleStatus (vehicleIngest (payloadOf vid r) noFail db).2.vehicleStatus
          (some (.str vid)) = some (vehicleStatusRowOf (payloadOf vid r) false)) ∧
      (∀ st q, findVehicleStatus db.vehicleStatus (some (.str vid)) = some st →
        st.soc = some (.num q) →
        (vehicleIngest (payloadOf vid r) noFail db).1 =
          .ok (resultOf vid r (decide (q < r.soc))) ∧
        findVehicleStatus (vehicleIngest (payloadOf vid r) noFail db).2.vehicleStatus
          (some (.str vid)) =
            some (vehicleStatusRowOf (payloadOf vid r) (decide (q < r.soc))))) ∧
    (∀ (r0 : VehicleIn) (rest : List VehicleIn) (db : IngDb),
      findVehicleStatus db.vehicleStatus (some (.str vid)) = none →
      (∀ r ∈ r0 :: rest, ValidIn r) →
      List.Chain (fun a b => a < b) r0.soc (rest.map (fun r => r.soc)) →
      (runVehicleIngests ((r0 :: rest).map (payloadOf vid)) db).1 =
        .ok (resultOf vid r0 false) :: rest.map (fun r => .ok (resultOf vid r true))) := by
  constructor
  · intro r db hr
    constructor
    · intro hfind
      have hflag : chargeFlagOf db vid r.soc = false := by simp [chargeFlagOf, hfind]
      rw [vehicleIngest_valid_run vid r db hvid hr, hflag]
      exact ⟨rfl, findVehicleStatus_upsert_self db.vehicleStatus
        (vehicleStatusRowOf (payloadOf vid r) false)⟩
    · intro st q hfind hsoc
      have hflag : chargeFlagOf db vid r.soc = decide (q < r.soc) := by
        simp [chargeFlagOf, hfind, hsoc, jsGt]
      rw [vehicleIngest_valid_run vid r db hvid hr, hflag]
      exact ⟨rfl, findVehicleStatus_upsert_self db.vehicleStatus
        (vehicleStatusRowOf (payloadOf vid r) (decide (q < r.soc)))⟩
  · intro r0 rest db hfind hvalid hchain
    have hr0 : ValidIn r0 := hvalid r0 (by simp)
    have hflag : chargeFlagOf db vid r0.soc = false := by
      simp [chargeFlagOf, hfind]
    rw [List.map_cons]
    show ((vehicleIngest (payloadOf vid r0) noFail db).1 ::
        (runVehicleIngests (rest.map (payloadOf vid))
          (vehicleIngest (payloadOf vid r0) noFail db).2).1, _).1 = _
    rw [vehicleIngest_valid_run vid r0 db hvid hr0, hflag]
    have hfind1 : findVehicleStatus
        (upsertVehicleStatus db.vehicleStatus (vehicleStatusRowOf (payloadOf vid r0) false))
        (some (.str vid)) = some (vehicleStatusRowOf (payloadOf vid r0) false) :=
      findVehicleStatus_upsert_self db.vehicleStatus
        (vehicleStatusRowOf (payloadOf vid r0) false)
    dsimp only
    congr 1
    exact runVehicleIngests_all_charging vid hvid rest _
      (vehicleStatusRowOf (payloadOf vid r0) false) r0.soc hfind1 rfl
      (fun w hw => hvalid w (by simp [hw])) hchain

/-- Witness for C4, the spec's own scenario: soc 40 then soc 55 for `V1`
starting from an empty store yields `isCharging` false then true. -/
theorem isCharging_from_prior_soc_witness :
    (runVehicleIngests ([⟨40, 5, 25, 1⟩, ⟨55, 8, 27, 2⟩].map (payloadOf "V1"))
        emptyIngDb).1 =
      [.ok (resultOf "V1" ⟨40, 5, 25, 1⟩ false), .ok (resultOf "V1" ⟨55, 8, 27, 2⟩ true)] := by
  have h := (isCharging_from_prior_soc "V1" (by decide)).2 ⟨40, 5, 25, 1⟩ [⟨55, 8, 27, 2⟩]
    emptyIngDb rfl
    (by
      intro r hr
      rcases List.mem_cons.mp hr with rfl | hr1
      · exact ⟨by norm_num, by norm_num, by norm_num⟩
      · rcases List.mem_singleton.mp hr1 with rfl
        exact ⟨by norm_num, by norm_num, by norm_num⟩)
    (List.Chain.cons (by norm_num) List.Chain.nil)
  simpa using h

end EnergyEngine
